import Mathlib

/-!
Verification of the `envreader` Go package (src/env.go).

The single exported function is

  func ReadEnv[T any](key string, defaultValue T) (T, error)

It fetches `os.Getenv(key)`; if the result is the empty string (the variable
is unset, or set to the empty string) it returns the default with no error.
Otherwise it dispatches on the type parameter `T` (int, int64, string, bool,
float64) and parses the raw string with the corresponding `strconv` function,
wrapping any parse failure; any other `T` yields an unsupported-type error.

The embedding models the process environment as a partial map from names to
strings, the closed set of dispatch types as an inductive `Ty`, and the
`strconv` parsers (`Atoi`, `ParseInt`, `ParseBool`, `ParseFloat`) as Lean
functions faithful to their Go semantics, including the `ErrSyntax` and
`ErrRange` sentinel causes and the exact error-message formats. The platform
is taken to be 64-bit, so Go `int` has the range of `int64`. IEEE-754
rounding of float64 literals is abstracted: a parsed finite literal denotes
its exact mathematical value as a rational.
-/

set_option autoImplicit false

namespace Envreader

/-- The process environment: a name is either unset (`none`) or bound to a
string, possibly the empty one. -/
def Env : Type := String → Option String

/-- `os.Getenv` returns the bound value, or the empty string when the
variable is unset; absence and the empty string are indistinguishable to the
caller. -/
def osGetenv (env : Env) (key : String) : String :=
  (env key).getD ""

/-- The sentinel causes of the Go `strconv` package: `ErrSyntax`
(message `invalid syntax`) and `ErrRange` (message `value out of range`). -/
inductive BaseErr where
  | syntaxErr
  | rangeErr
deriving DecidableEq

/-- The `Error()` string of a `strconv` sentinel. -/
def BaseErr.message : BaseErr → String
  | .syntaxErr => "invalid syntax"
  | .rangeErr => "value out of range"

/-- Model of `strconv.NumError`: the failing function name, the input
string, and the wrapped sentinel cause (`NumError.Unwrap` returns `err`). -/
structure NumError where
  fn : String
  num : String
  err : BaseErr
deriving DecidableEq

/-- Model of `strconv.Quote` restricted to the escapes exercised here:
the quote and backslash characters and the common control characters are
escaped, all other characters are kept verbatim. (Go additionally escapes
rarer non-printable runes, which no string in this development contains.) -/
def goQuoteChar (c : Char) : String :=
  if c = Char.ofNat 34 then "\\\""
  else if c = Char.ofNat 92 then "\\\\"
  else if c = Char.ofNat 10 then "\\n"
  else if c = Char.ofNat 9 then "\\t"
  else if c = Char.ofNat 13 then "\\r"
  else String.singleton c

/-- `strconv.Quote`: a double-quoted Go string literal for `s`. -/
def goQuote (s : String) : String :=
  "\"" ++ String.join (s.toList.map goQuoteChar) ++ "\""

/-- The `Error()` string of a `NumError`:
`strconv.<fn>: parsing <quoted input>: <cause message>`. -/
def NumError.message (e : NumError) : String :=
  "strconv." ++ e.fn ++ ": parsing " ++ goQuote e.num ++ ": " ++ e.err.message

/-- The errors `ReadEnv` can return: a conversion error built by
`fmt.Errorf("failed to convert %q to <type>: %w", envValue, err)`, which
wraps the `strconv` `NumError`, or the flat unsupported-type error built by
`fmt.Errorf("unsupported type for environment variable conversion: %T",
defaultValue)`. -/
inductive GoError where
  | conversion (raw : String) (typeName : String) (cause : NumError)
  | unsupported (typeName : String)
deriving DecidableEq

/-- The `Error()` string of a `GoError`. -/
def GoError.message : GoError → String
  | .conversion raw ty cause =>
      "failed to convert " ++ goQuote raw ++ " to " ++ ty ++ ": " ++ cause.message
  | .unsupported ty =>
      "unsupported type for environment variable conversion: " ++ ty

/-- Model of `errors.Is(e, sentinel)` for the two `strconv` sentinels: the
`%w` verb makes the conversion error wrap the `NumError`, whose `Unwrap`
exposes its sentinel cause; the unsupported-type error wraps nothing. -/
def GoError.isBase : GoError → BaseErr → Bool
  | .conversion _ _ cause, b => cause.err = b
  | .unsupported _, _ => false

/-! ## strconv integer parsing (base 10, 64-bit) -/

/-- Accumulate a non-empty run of decimal digits; `none` on any other
character (with an explicit base 10, `strconv.ParseUint` rejects
underscores). -/
def decDigitsVal : List Char → Nat → Option Nat
  | [], acc => some acc
  | c :: cs, acc =>
      if c.isDigit then decDigitsVal cs (acc * 10 + (c.toNat - 48))
      else none

/-- Shared body of `strconv.Atoi` and `strconv.ParseInt(s, 10, 64)`: an
optional sign followed by at least one decimal digit; the value must fit in
a signed 64-bit integer, otherwise the error is the `ErrRange` sentinel
(the clamped value Go also returns is discarded by every caller here).
`fn` is the function name recorded in the `NumError`. -/
def goParseIntB10 (fn : String) (s : String) : Except NumError Int :=
  if s = "" then .error ⟨fn, s, .syntaxErr⟩
  else
    let signDigits : Bool × List Char :=
      match s.toList with
      | '+' :: rest => (false, rest)
      | '-' :: rest => (true, rest)
      | rest => (false, rest)
    match signDigits with
    | (neg, ds) =>
      if ds = [] then .error ⟨fn, s, .syntaxErr⟩
      else
        match decDigitsVal ds 0 with
        | none => .error ⟨fn, s, .syntaxErr⟩
        | some n =>
            if neg = false ∧ (2 : Nat) ^ 63 ≤ n then .error ⟨fn, s, .rangeErr⟩
            else if neg = true ∧ (2 : Nat) ^ 63 < n then .error ⟨fn, s, .rangeErr⟩
            else .ok (if neg then -(n : Int) else (n : Int))

/-- `strconv.Atoi` (Go `int`, 64-bit platform): `ParseInt(s, 10, 0)` with
the function name in the error rewritten to `Atoi`. -/
def goAtoi (s : String) : Except NumError Int :=
  goParseIntB10 "Atoi" s

/-- `strconv.ParseInt(s, 10, 64)`. -/
def goParseInt64 (s : String) : Except NumError Int :=
  goParseIntB10 "ParseInt" s

/-! ## strconv.ParseBool -/

/-- The literals `strconv.ParseBool` maps to `true`. -/
def boolTrueLits : List String := ["1", "t", "T", "TRUE", "true", "True"]

/-- The literals `strconv.ParseBool` maps to `false`. -/
def boolFalseLits : List String := ["0", "f", "F", "FALSE", "false", "False"]

/-- `strconv.ParseBool`: a switch over the twelve accepted literals; any
other string is an `ErrSyntax` failure. -/
def goParseBool (str : String) : Except NumError Bool :=
  if str ∈ boolTrueLits then .ok true
  else if str ∈ boolFalseLits then .ok false
  else .error ⟨"ParseBool", str, .syntaxErr⟩

/-! ## strconv.ParseFloat(s, 64)

Go accepts `inf`/`infinity` (optionally signed) and `nan`, case-insensitive,
plus decimal and hexadecimal floating-point literals with digit-separating
underscores. IEEE-754 rounding is abstracted: a finite literal denotes its
exact mathematical value as a rational, and only overflow past the largest
finite float64 is reported as an `ErrRange` failure, mirroring the one range
condition `strconv.ParseFloat` documents for decimal input. -/

/-- The value of a parsed float64 literal; a finite literal is kept as its
exact rational value (rounding abstracted, see above). -/
inductive GoFloat where
  | finite (q : Rat)
  | inf (neg : Bool)
  | nan
deriving DecidableEq

/-- Case-insensitive ASCII character comparison (Go lower-cases each byte
with `c | 0x20` before comparing against a lower-case pattern letter). -/
def chEqIC (c p : Char) : Bool :=
  c = p ∨ (65 ≤ c.toNat ∧ c.toNat ≤ 90 ∧ c.toNat + 32 = p.toNat)

/-- Whole-list case-insensitive match against a lower-case pattern. -/
def eqListIC : List Char → List Char → Bool
  | [], [] => true
  | c :: cs, p :: ps => chEqIC c p && eqListIC cs ps
  | _, _ => false

/-- `inf` or `infinity`, case-insensitive. -/
def infMatch (cs : List Char) : Bool :=
  eqListIC cs ("inf".toList) || eqListIC cs ("infinity".toList)

/-- The special values recognised before the literal grammar: signed
`inf`/`infinity` and unsigned `nan` (Go function `special`, combined with
the full-consumption check of `ParseFloat`). -/
def floatSpecial (cs : List Char) : Option GoFloat :=
  match cs with
  | '+' :: rest => if infMatch rest then some (.inf false) else none
  | '-' :: rest => if infMatch rest then some (.inf true) else none
  | rest =>
      if infMatch rest then some (.inf false)
      else if eqListIC rest ("nan".toList) then some GoFloat.nan
      else none

/-- Is `c` a hexadecimal letter digit. -/
def isHexLetter (c : Char) : Bool :=
  (97 ≤ c.toNat && c.toNat ≤ 102) || (65 ≤ c.toNat && c.toNat ≤ 70)

/-- Digit value of a decimal or hexadecimal digit character. -/
def digVal (c : Char) : Nat :=
  if c.isDigit then c.toNat - 48
  else if 97 ≤ c.toNat && c.toNat ≤ 102 then c.toNat - 87
  else if 65 ≤ c.toNat && c.toNat ≤ 70 then c.toNat - 55
  else 0

/-- Character classes tracked by Go `underscoreOK`: start of the number, a
digit (or base prefix), an underscore, anything else. -/
inductive UClass where
  | start
  | dig
  | und
  | other
deriving DecidableEq

/-- Scanning loop of Go `underscoreOK`: every underscore must follow, and be
followed by, a digit (the base prefix counting as a digit). -/
def underscoreOKAux (hex : Bool) : List Char → UClass → Bool
  | [], saw => saw ≠ UClass.und
  | c :: cs, saw =>
      if c.isDigit || (hex && isHexLetter c) then underscoreOKAux hex cs .dig
      else if c = '_' then
        if saw = UClass.dig then underscoreOKAux hex cs .und else false
      else if saw = UClass.und then false
      else underscoreOKAux hex cs .other

/-- Go `strconv.underscoreOK`: strip an optional sign, recognise an optional
`0b`/`0o`/`0x` base prefix, then run the scanning loop. -/
def underscoreOK (cs : List Char) : Bool :=
  let cs1 : List Char :=
    match cs with
    | '+' :: r => r
    | '-' :: r => r
    | r => r
  match cs1 with
  | '0' :: b :: r =>
      if b = 'x' ∨ b = 'X' then underscoreOKAux true r .dig
      else if b = 'b' ∨ b = 'B' ∨ b = 'o' ∨ b = 'O' then underscoreOKAux false r .dig
      else underscoreOKAux false cs1 .start
  | _ => underscoreOKAux false cs1 .start

/-- Mantissa scan of Go `readFloat`: consume digits of the given base, at
most one decimal point and any underscores (their placement is validated
separately), returning the accumulated digits, the count of digits after
the point, whether any digit was seen, and the unconsumed rest. -/
def scanMant (hex : Bool) : List Char → Bool → Nat → Nat → Bool → Nat × Nat × Bool × List Char
  | [], _, acc, frac, sawDig => (acc, frac, sawDig, [])
  | c :: cs, sawDot, acc, frac, sawDig =>
      if c = '_' then scanMant hex cs sawDot acc frac sawDig
      else if c.isDigit || (hex && isHexLetter c) then
        scanMant hex cs sawDot (acc * (if hex then 16 else 10) + digVal c)
          (if sawDot then frac + 1 else frac) true
      else if c = '.' ∧ sawDot = false then scanMant hex cs true acc frac sawDig
      else (acc, frac, sawDig, c :: cs)

/-- Exponent digit scan: at least one decimal digit, with underscores
skipped; any other character is a syntax failure (`ParseFloat` requires the
whole input to be consumed). -/
def scanExpDigitsAux : List Char → Nat → Option Nat
  | [], acc => some acc
  | c :: cs, acc =>
      if c.isDigit then scanExpDigitsAux cs (acc * 10 + (c.toNat - 48))
      else if c = '_' then scanExpDigitsAux cs acc
      else none

/-- Exponent digits: the first character must be a decimal digit. -/
def scanExpDigits : List Char → Option Nat
  | [] => none
  | c :: cs => if c.isDigit then scanExpDigitsAux cs (c.toNat - 48) else none

/-- Exact value of a parsed literal as a rational: the sign and the
mantissa digits `acc`, of which `frac` follow the point, scaled by the
exponent. A decimal literal is worth `acc * 10 ^ (expv - frac)`; a
hexadecimal one (`base2`) is worth `acc * 2 ^ (expv - 4 * frac)`, four bits
per hex digit. -/
def litValue (base2 : Bool) (neg : Bool) (acc frac : Nat) (expv : Int) : Rat :=
  let b : Nat := if base2 then 2 else 10
  let e : Int := if base2 then expv - 4 * (frac : Int) else expv - (frac : Int)
  let n : Int := if neg then -(acc : Int) else (acc : Int)
  if 0 ≤ e then mkRat (n * (Int.ofNat (b ^ e.toNat))) 1 else mkRat n (b ^ (-e).toNat)

/-- Go `readFloat` combined with the full-consumption check: the exact value
of the literal, or `none` on a syntax failure. An optional sign, an optional
`0x` prefix, a mantissa with at least one digit, and an optional `e`
exponent (a mandatory `p` exponent for hexadecimal literals). -/
def readFloatVal (cs : List Char) : Option Rat :=
  if cs.contains '_' ∧ underscoreOK cs = false then none
  else
    let signRest : Bool × List Char :=
      match cs with
      | '+' :: r => (false, r)
      | '-' :: r => (true, r)
      | r => (false, r)
    match signRest with
    | (neg, rest) =>
      let hexBody : Bool × List Char :=
        match rest with
        | '0' :: x :: r => if x = 'x' ∨ x = 'X' then (true, r) else (false, rest)
        | _ => (false, rest)
      match hexBody with
      | (hex, body) =>
        match scanMant hex body false 0 0 false with
        | (acc, frac, sawDig, after) =>
          if sawDig = false then none
          else
            match after with
            | [] =>
                if hex then none
                else some (litValue false neg acc frac 0)
            | e :: rest2 =>
                let expCharOK : Bool :=
                  if hex then e = 'p' ∨ e = 'P' else e = 'e' ∨ e = 'E'
                if expCharOK = false then none
                else
                  let expSign : Bool × List Char :=
                    match rest2 with
                    | '+' :: r => (false, r)
                    | '-' :: r => (true, r)
                    | r => (false, r)
                  match expSign with
                  | (eneg, digs) =>
                    match scanExpDigits digs with
                    | none => none
                    | some ev =>
                        let expv : Int := if eneg then -(ev : Int) else (ev : Int)
                        some (litValue hex neg acc frac expv)

/-- Values at least this large round past the largest finite float64
`(2^53 - 1) * 2^971` to infinity, which `ParseFloat` reports as `ErrRange`
(midpoint included, by round-to-even). -/
def float64OverflowBound : Rat :=
  mkRat (Int.ofNat ((2 ^ 54 - 1) * 2 ^ 970)) 1

/-- `strconv.ParseFloat(s, 64)`: special values first, then the literal
grammar; a syntax failure wraps `ErrSyntax`, overflow to infinity wraps
`ErrRange` (the `±Inf` value Go also returns is discarded by every caller
here). -/
def goParseFloat (s : String) : Except NumError GoFloat :=
  match floatSpecial s.toList with
  | some f => .ok f
  | none =>
      match readFloatVal s.toList with
      | none => .error ⟨"ParseFloat", s, .syntaxErr⟩
      | some q =>
          if float64OverflowBound ≤ q ∨ q ≤ Rat.neg float64OverflowBound then
            .error ⟨"ParseFloat", s, .rangeErr⟩
          else .ok (.finite q)

/-! ## ReadEnv -/

/-- The closed set of types the `switch any(result).(type)` of `ReadEnv`
dispatches on; `tother` is any other type parameter, carrying the name `%T`
prints for it (for example `[]int`). -/
inductive Ty where
  | tint
  | tint64
  | tstr
  | tbool
  | tfloat64
  | tother (name : String)
deriving DecidableEq

/-- The Lean type of Go values of each dispatch type. Both Go `int`
(64-bit platform) and `int64` carry integers; values of an unsupported type
are opaque to `ReadEnv`, which only ever passes them through, so they are
represented by an uninterpreted token. -/
@[reducible] def Ty.denote : Ty → Type
  | .tint => Int
  | .tint64 => Int
  | .tstr => String
  | .tbool => Bool
  | .tfloat64 => GoFloat
  | .tother _ => String

/-- The name `%T` prints for each dispatch type. -/
def Ty.name : Ty → String
  | .tint => "int"
  | .tint64 => "int64"
  | .tstr => "string"
  | .tbool => "bool"
  | .tfloat64 => "float64"
  | .tother n => n

/-- The dispatch types whose branch runs a `strconv` parser. -/
def Ty.parseableTy : Ty → Bool
  | .tint | .tint64 | .tbool | .tfloat64 => true
  | .tstr | .tother _ => false

/-- The type switch of `ReadEnv` (src/env.go lines 17-46), reached only
with a non-empty `envValue`: each supported type parses with its `strconv`
function and wraps a failure in the conversion error; `string` passes the
raw value through; any other type yields the unsupported-type error. -/
def typeSwitch : (t : Ty) → (envValue : String) → (defaultValue : t.denote) → t.denote × Option GoError
  | .tint, envValue, defaultValue =>
      match goAtoi envValue with
      | .error err => (defaultValue, some (.conversion envValue "int" err))
      | .ok val => (val, none)
  | .tint64, envValue, defaultValue =>
      match goParseInt64 envValue with
      | .error err => (defaultValue, some (.conversion envValue "int64" err))
      | .ok val => (val, none)
  | .tstr, envValue, _ => (envValue, none)
  | .tbool, envValue, defaultValue =>
      match goParseBool envValue with
      | .error err => (defaultValue, some (.conversion envValue "bool" err))
      | .ok val => (val, none)
  | .tfloat64, envValue, defaultValue =>
      match goParseFloat envValue with
      | .error err => (defaultValue, some (.conversion envValue "float64" err))
      | .ok val => (val, none)
  | .tother name, _, defaultValue => (defaultValue, some (.unsupported name))

/-- `ReadEnv[T](key, defaultValue)` over an explicit environment
(src/env.go lines 9-47): fetch the variable; the empty string (unset or set
empty) returns the default with no error; otherwise run the type switch. -/
def ReadEnv (t : Ty) (key : String) (defaultValue : t.denote) (env : Env) : t.denote × Option GoError :=
  let envValue := osGetenv env key
  if envValue = "" then (defaultValue, none)
  else typeSwitch t envValue defaultValue

/-! ## The type assertions of ReadEnv

Each success branch of the source returns `any(val).(T)`, an unchecked Go
type assertion that panics when the dynamic type of `val` is not `T`. To
show no such panic can happen, the assertion is modelled explicitly: parsed
values are boxed in `GoAny` (the dynamic types `int` and `int64` are
distinct even though both carry integers), the assertion is a partial cast,
and a failed cast makes the checked variant of `ReadEnv` return `none`,
standing for a panic. -/

/-- A Go `any` box around a value of one of the parsed types. -/
inductive GoAny where
  | intV (v : Int)
  | int64V (v : Int)
  | strV (s : String)
  | boolV (b : Bool)
  | floatV (f : GoFloat)
deriving DecidableEq

/-- The type assertion `any(val).(T)`: `none` means the assertion fails and
the program panics. -/
def castTo : (t : Ty) → GoAny → Option t.denote
  | .tint, .intV v => some v
  | .tint64, .int64V v => some v
  | .tstr, .strV s => some s
  | .tbool, .boolV b => some b
  | .tfloat64, .floatV f => some f
  | _, _ => none

/-- The type switch with every `any(val).(T)` assertion performed through
`castTo`; `none` is a panic. -/
def typeSwitchChecked : (t : Ty) → (envValue : String) → (defaultValue : t.denote) → Option (t.denote × Option GoError)
  | .tint, envValue, defaultValue =>
      match goAtoi envValue with
      | .error err => some (defaultValue, some (.conversion envValue "int" err))
      | .ok val =>
          match castTo .tint (.intV val) with
          | none => none
          | some v => some (v, none)
  | .tint64, envValue, defaultValue =>
      match goParseInt64 envValue with
      | .error err => some (defaultValue, some (.conversion envValue "int64" err))
      | .ok val =>
          match castTo .tint64 (.int64V val) with
          | none => none
          | some v => some (v, none)
  | .tstr, envValue, _ =>
      match castTo .tstr (.strV envValue) with
      | none => none
      | some v => some (v, none)
  | .tbool, envValue, defaultValue =>
      match goParseBool envValue with
      | .error err => some (defaultValue, some (.conversion envValue "bool" err))
      | .ok val =>
          match castTo .tbool (.boolV val) with
          | none => none
          | some v => some (v, none)
  | .tfloat64, envValue, defaultValue =>
      match goParseFloat envValue with
      | .error err => some (defaultValue, some (.conversion envValue "float64" err))
      | .ok val =>
          match castTo .tfloat64 (.floatV val) with
          | none => none
          | some v => some (v, none)
  | .tother name, _, defaultValue => some (defaultValue, some (.unsupported name))

/-- `ReadEnv` with its type assertions checked; `none` is a panic. -/
def ReadEnvChecked (t : Ty) (key : String) (defaultValue : t.denote) (env : Env) : Option (t.denote × Option GoError) :=
  let envValue := osGetenv env key
  if envValue = "" then some (defaultValue, none)
  else typeSwitchChecked t envValue defaultValue

/-! ## Helper notions for the statements -/

/-- An environment binding exactly one variable. -/
def envOf (key v : String) : Env :=
  fun k => if k = key then some v else none

/-- The raw string `raw` parses as type `t` to the value `v`: success of the
branch parser of the type switch (the `string` branch always succeeds with
the raw value itself; an unsupported type parses nothing). -/
def parsesTo : (t : Ty) → (raw : String) → t.denote → Prop
  | .tint, raw, v => goAtoi raw = .ok v
  | .tint64, raw, v => goParseInt64 raw = .ok v
  | .tstr, raw, v => raw = v
  | .tbool, raw, v => goParseBool raw = .ok v
  | .tfloat64, raw, v => goParseFloat raw = .ok v
  | .tother _, _, _ => False

/-- The `NumError` produced by the branch parser of type `t` on `raw`, when
it fails (`none` on success, and for the branches that run no parser). -/
def tyParseErr : Ty → String → Option NumError
  | .tint, raw =>
      match goAtoi raw with
      | .error e => some e
      | .ok _ => none
  | .tint64, raw =>
      match goParseInt64 raw with
      | .error e => some e
      | .ok _ => none
  | .tbool, raw =>
      match goParseBool raw with
      | .error e => some e
      | .ok _ => none
  | .tfloat64, raw =>
      match goParseFloat raw with
      | .error e => some e
      | .ok _ => none
  | .tstr, _ => none
  | .tother _, _ => none

/-! ## Unfolding lemmas -/

theorem ReadEnv_eq (t : Ty) (key : String) (d : t.denote) (env : Env) :
    ReadEnv t key d env =
      if osGetenv env key = "" then (d, none) else typeSwitch t (osGetenv env key) d := rfl

theorem ReadEnvChecked_eq (t : Ty) (key : String) (d : t.denote) (env : Env) :
    ReadEnvChecked t key d env =
      if osGetenv env key = "" then some (d, none)
      else typeSwitchChecked t (osGetenv env key) d := rfl

theorem osGetenv_eq_of_bound {env : Env} {key raw : String} (h : env key = some raw) :
    osGetenv env key = raw := by
  simp [osGetenv, h]

/-! ## The claims -/

/-- C1: for every supported type and every default value, when the variable
named by `key` is not set, or is set to the empty string, `ReadEnv` returns
the default with no error immediately; the unset and empty-string cases
produce the identical result. -/
theorem c1_absent_or_empty_returns_default (t : Ty) (key : String)
    (d : t.denote) (env : Env) (h : env key = none ∨ env key = some "") :
    ReadEnv t key d env = (d, none) := by
  rcases h with h | h <;> simp [ReadEnv_eq, osGetenv, h]

theorem c1_absent_or_empty_returns_default_witness :
    ReadEnv .tint "PORT" (8080 : Int) (fun _ => none) = (8080, none) ∧
    ReadEnv .tstr "HOST" "localhost" (envOf "HOST" "") = ("localhost", none) :=
  ⟨c1_absent_or_empty_returns_default .tint "PORT" 8080 (fun _ => none) (Or.inl rfl),
   c1_absent_or_empty_returns_default .tstr "HOST" "localhost" (envOf "HOST" "")
     (Or.inr rfl)⟩

/-- C2: for every type, key and default, the returned value either equals
the default, or there was no error and the value is exactly what the branch
parser produced from the raw string; in particular, whenever `ReadEnv`
returns an error the returned value equals the default. -/
theorem c2_value_parsed_or_default (t : Ty) (key : String) (d : t.denote) (env : Env) :
    ((ReadEnv t key d env).1 = d ∨
      ((ReadEnv t key d env).2 = none ∧
        parsesTo t (osGetenv env key) (ReadEnv t key d env).1)) ∧
    (∀ e : GoError, (ReadEnv t key d env).2 = some e → (ReadEnv t key d env).1 = d) := by
  rw [ReadEnv_eq]
  by_cases h : osGetenv env key = ""
  · simp [h]
  · rw [if_neg h]
    cases t with
    | tint =>
        rcases hp : goAtoi (osGetenv env key) with e | v <;>
          simp [typeSwitch, hp, parsesTo]
    | tint64 =>
        rcases hp : goParseInt64 (osGetenv env key) with e | v <;>
          simp [typeSwitch, hp, parsesTo]
    | tstr => simp [typeSwitch, parsesTo]
    | tbool =>
        rcases hp : goParseBool (osGetenv env key) with e | v <;>
          simp [typeSwitch, hp, parsesTo]
    | tfloat64 =>
        rcases hp : goParseFloat (osGetenv env key) with e | v <;>
          simp [typeSwitch, hp, parsesTo]
    | tother name => simp [typeSwitch]

theorem c2_value_parsed_or_default_witness :
    (ReadEnv .tint "TEST_INVALID_INT" (10 : Int) (envOf "TEST_INVALID_INT" "abc")).1 = 10 :=
  (c2_value_parsed_or_default .tint "TEST_INVALID_INT" 10 (envOf "TEST_INVALID_INT" "abc")).2
    (GoError.conversion "abc" "int" ⟨"Atoi", "abc", .syntaxErr⟩) rfl

/-- C3: for every type outside the supported set and every non-empty raw
value, `ReadEnv` returns the default with the unsupported-type error, with
no parse attempted and independently of the raw content, and the message is
exactly `unsupported type for environment variable conversion: <type-name>`
for the concrete type of the default. -/
theorem c3_unsupported_type_rejected (name key : String) (d : String) (env : Env)
    (raw : String) (h1 : env key = some raw) (h2 : raw ≠ "") :
    ReadEnv (.tother name) key d env = (d, some (.unsupported name)) ∧
    (GoError.unsupported name).message =
      "unsupported type for environment variable conversion: " ++ name := by
  refine ⟨?_, rfl⟩
  rw [ReadEnv_eq, osGetenv_eq_of_bound h1, if_neg h2]
  rfl

theorem c3_unsupported_type_rejected_witness :
    ReadEnv (.tother "[]int") "TEST_SLICE" "slice-default" (envOf "TEST_SLICE" "1,2,3") =
      ("slice-default", some (.unsupported "[]int")) ∧
    (GoError.unsupported "[]int").message =
      "unsupported type for environment variable conversion: []int" :=
  c3_unsupported_type_rejected "[]int" "TEST_SLICE" "slice-default"
    (envOf "TEST_SLICE" "1,2,3") "1,2,3" rfl (by decide)

/-- C4: every well-formed non-empty raw value of a supported type parses
with no error: `123` gives int 123, `-50` gives int -50,
`9223372036854775807` gives int64 max, `true` and `false` give the booleans,
and `3.14` gives the float64 value 3.14 (the exact rational 157/50 in this
embedding, IEEE rounding being abstracted). -/
theorem c4_wellformed_values_parse :
    ReadEnv .tint "TEST_INT" (0 : Int) (envOf "TEST_INT" "123") = (123, none) ∧
    ReadEnv .tint "TEST_INT" (0 : Int) (envOf "TEST_INT" "-50") = (-50, none) ∧
    ReadEnv .tint64 "TEST_INT64" (0 : Int) (envOf "TEST_INT64" "9223372036854775807") =
      (9223372036854775807, none) ∧
    ReadEnv .tbool "TEST_BOOL" false (envOf "TEST_BOOL" "true") = (true, none) ∧
    ReadEnv .tbool "TEST_BOOL" true (envOf "TEST_BOOL" "false") = (false, none) ∧
    ReadEnv .tfloat64 "TEST_FLOAT" (GoFloat.finite (mkRat 0 1)) (envOf "TEST_FLOAT" "3.14") =
      (GoFloat.finite (mkRat 157 50), none) := by
  refine ⟨rfl, rfl, rfl, rfl, rfl, ?_⟩
  set_option maxRecDepth 100000 in decide

/-- C5: for every parseable supported type and every non-empty raw value on
which that branch parser fails, `ReadEnv` returns the default together with
the conversion error wrapping the `NumError` of the parser, and the textual
form of that error is exactly
`failed to convert "<raw>" to <type-name>: <underlying message>`. -/
theorem c5_malformed_value_conversion_error (t : Ty) (key : String)
    (d : t.denote) (env : Env) (raw : String) (e : NumError)
    (hp : t.parseableTy = true) (h1 : env key = some raw) (h2 : raw ≠ "")
    (he : tyParseErr t raw = some e) :
    ReadEnv t key d env = (d, some (.conversion raw t.name e)) ∧
    (GoError.conversion raw t.name e).message =
      "failed to convert " ++ goQuote raw ++ " to " ++ t.name ++ ": " ++ e.message := by
  refine ⟨?_, rfl⟩
  rw [ReadEnv_eq, osGetenv_eq_of_bound h1, if_neg h2]
  cases t with
  | tint =>
      rcases hq : goAtoi raw with e2 | v <;> simp [tyParseErr, hq] at he
      subst he; simp [typeSwitch, hq, Ty.name]
  | tint64 =>
      rcases hq : goParseInt64 raw with e2 | v <;> simp [tyParseErr, hq] at he
      subst he; simp [typeSwitch, hq, Ty.name]
  | tbool =>
      rcases hq : goParseBool raw with e2 | v <;> simp [tyParseErr, hq] at he
      subst he; simp [typeSwitch, hq, Ty.name]
  | tfloat64 =>
      rcases hq : goParseFloat raw with e2 | v <;> simp [tyParseErr, hq] at he
      subst he; simp [typeSwitch, hq, Ty.name]
  | tstr => simp [Ty.parseableTy] at hp
  | tother name => simp [Ty.parseableTy] at hp

theorem c5_malformed_value_conversion_error_witness :
    ReadEnv .tint "TEST_INVALID_INT" (10 : Int) (envOf "TEST_INVALID_INT" "abc") =
      (10, some (.conversion "abc" "int" ⟨"Atoi", "abc", .syntaxErr⟩)) ∧
    (GoError.conversion "abc" "int" ⟨"Atoi", "abc", .syntaxErr⟩).message =
      "failed to convert " ++ goQuote "abc" ++ " to " ++ "int" ++ ": " ++
        NumError.message ⟨"Atoi", "abc", .syntaxErr⟩ :=
  c5_malformed_value_conversion_error .tint "TEST_INVALID_INT" 10
    (envOf "TEST_INVALID_INT" "abc") "abc" ⟨"Atoi", "abc", .syntaxErr⟩
    rfl rfl (by decide) rfl

/-- C6: every conversion error returned by `ReadEnv` wraps the exact
`NumError` of the underlying parser, whose sentinel cause stays
introspectable through the chain and not only via the string form: the
`errors.Is`-style check against the syntax sentinel holds exactly when the
cause is `ErrSyntax`, against the range sentinel exactly when it is
`ErrRange`, and the two checks never agree. -/
theorem c6_wrapped_cause_introspectable (t : Ty) (key : String)
    (d : t.denote) (env : Env) (raw : String) (c : NumError)
    (h1 : env key = some raw) (h2 : raw ≠ "") (hc : tyParseErr t raw = some c) :
    (ReadEnv t key d env).2 = some (.conversion raw t.name c) ∧
    (GoError.isBase (.conversion raw t.name c) .syntaxErr = true ↔ c.err = .syntaxErr) ∧
    (GoError.isBase (.conversion raw t.name c) .rangeErr = true ↔ c.err = .rangeErr) ∧
    GoError.isBase (.conversion raw t.name c) .syntaxErr ≠
      GoError.isBase (.conversion raw t.name c) .rangeErr := by
  refine ⟨?_, ?_, ?_, ?_⟩
  · rw [ReadEnv_eq, osGetenv_eq_of_bound h1, if_neg h2]
    cases t with
    | tint =>
        rcases hq : goAtoi raw with e2 | v <;> simp [tyParseErr, hq] at hc
        subst hc; simp [typeSwitch, hq, Ty.name]
    | tint64 =>
        rcases hq : goParseInt64 raw with e2 | v <;> simp [tyParseErr, hq] at hc
        subst hc; simp [typeSwitch, hq, Ty.name]
    | tbool =>
        rcases hq : goParseBool raw with e2 | v <;> simp [tyParseErr, hq] at hc
        subst hc; simp [typeSwitch, hq, Ty.name]
    | tfloat64 =>
        rcases hq : goParseFloat raw with e2 | v <;> simp [tyParseErr, hq] at hc
        subst hc; simp [typeSwitch, hq, Ty.name]
    | tstr => simp [tyParseErr] at hc
    | tother name => simp [tyParseErr] at hc
  · simp [GoError.isBase]
  · simp [GoError.isBase]
  · cases h : c.err <;> simp [GoError.isBase, h]

theorem c6_wrapped_cause_introspectable_witness :
    (ReadEnv .tint64 "TEST_INT64" (0 : Int)
        (envOf "TEST_INT64" "9223372036854775808")).2 =
      some (.conversion "9223372036854775808" "int64"
        ⟨"ParseInt", "9223372036854775808", .rangeErr⟩) ∧
    (GoError.isBase
        (.conversion "9223372036854775808" "int64"
          ⟨"ParseInt", "9223372036854775808", .rangeErr⟩) .syntaxErr = true ↔
      NumError.err ⟨"ParseInt", "9223372036854775808", .rangeErr⟩ = .syntaxErr) ∧
    (GoError.isBase
        (.conversion "9223372036854775808" "int64"
          ⟨"ParseInt", "9223372036854775808", .rangeErr⟩) .rangeErr = true ↔
      NumError.err ⟨"ParseInt", "9223372036854775808", .rangeErr⟩ = .rangeErr) ∧
    GoError.isBase
        (.conversion "9223372036854775808" "int64"
          ⟨"ParseInt", "9223372036854775808", .rangeErr⟩) .syntaxErr ≠
      GoError.isBase
        (.conversion "9223372036854775808" "int64"
          ⟨"ParseInt", "9223372036854775808", .rangeErr⟩) .rangeErr :=
  c6_wrapped_cause_introspectable .tint64 "TEST_INT64" 0
    (envOf "TEST_INT64" "9223372036854775808") "9223372036854775808"
    ⟨"ParseInt", "9223372036854775808", .rangeErr⟩ rfl (by decide) rfl

/-- C7: for booleans, `ReadEnv` accepts exactly the twelve literals of
`strconv.ParseBool` — `true`/`false` with their case and shorthand
variants, `1`/`0` and `t`/`f` among them — returning the corresponding
boolean with no error, and every other non-empty raw value yields the
default with a conversion error. -/
theorem c7_bool_literal_grammar (key : String) (d : Bool) (env : Env)
    (s : String) (h1 : env key = some s) (h2 : s ≠ "") :
    (s ∈ boolTrueLits → ReadEnv .tbool key d env = (true, none)) ∧
    (s ∈ boolFalseLits → ReadEnv .tbool key d env = (false, none)) ∧
    (s ∉ boolTrueLits → s ∉ boolFalseLits →
      ReadEnv .tbool key d env =
        (d, some (.conversion s "bool" ⟨"ParseBool", s, .syntaxErr⟩))) := by
  refine ⟨fun ht => ?_, fun hf => ?_, fun ht hf => ?_⟩ <;>
    rw [ReadEnv_eq, osGetenv_eq_of_bound h1, if_neg h2]
  · simp [typeSwitch, goParseBool, ht]
  · have ht : s ∉ boolTrueLits := by
      intro ht
      simp only [boolFalseLits, List.mem_cons, List.not_mem_nil, or_false] at hf
      rcases hf with h | h | h | h | h | h <;> subst h <;> exact absurd ht (by decide)
    simp [typeSwitch, goParseBool, ht, hf]
  · simp [typeSwitch, goParseBool, ht, hf]

theorem c7_bool_literal_grammar_witness :
    ReadEnv .tbool "A" false (envOf "A" "t") = (true, none) ∧
    ReadEnv .tbool "B" true (envOf "B" "0") = (false, none) ∧
    ReadEnv .tbool "C" true (envOf "C" "not_a_bool") =
      (true, some (.conversion "not_a_bool" "bool"
        ⟨"ParseBool", "not_a_bool", .syntaxErr⟩)) :=
  ⟨(c7_bool_literal_grammar "A" false (envOf "A" "t") "t" rfl (by decide)).1
      (by decide),
   (c7_bool_literal_grammar "B" true (envOf "B" "0") "0" rfl (by decide)).2.1
      (by decide),
   (c7_bool_literal_grammar "C" true (envOf "C" "not_a_bool") "not_a_bool" rfl
      (by decide)).2.2 (by decide) (by decide)⟩

/-- C8, counterexample: the claim quantifies over any string the variable
is set to, but setting it to the empty string makes `ReadEnv` return the
default (the empty check of line 12 precedes the string branch), not the
raw empty value itself — exactly what the repository test
`String_EnvExists_EmptyValue` expects. -/
theorem c8_counterexample_empty_raw_value :
    envOf "TEST_EMPTY" "" "TEST_EMPTY" = some "" ∧
    ReadEnv .tstr "TEST_EMPTY" "empty_default" (envOf "TEST_EMPTY" "") ≠
      ("", none) ∧
    ReadEnv .tstr "TEST_EMPTY" "empty_default" (envOf "TEST_EMPTY" "") =
      ("empty_default", none) :=
  ⟨rfl, by decide, rfl⟩

/-- C8, amended: for strings, every NON-EMPTY raw value the variable is set
to is returned unchanged with no error and no conversion; the empty string
instead falls under the absent-or-empty rule and yields the default. -/
theorem c8_string_raw_value_unchanged (key : String) (d : String) (env : Env)
    (raw : String) (h1 : env key = some raw) (h2 : raw ≠ "") :
    ReadEnv .tstr key d env = (raw, none) := by
  rw [ReadEnv_eq, osGetenv_eq_of_bound h1, if_neg h2]
  rfl

theorem c8_string_raw_value_unchanged_witness :
    ReadEnv .tstr "TEST_STRING" "default" (envOf "TEST_STRING" "hello_world") =
      ("hello_world", none) :=
  c8_string_raw_value_unchanged "TEST_STRING" "default"
    (envOf "TEST_STRING" "hello_world") "hello_world" rfl (by decide)

/-- C9: for every type, key, default and environment, `ReadEnv` completes
without a panic: the variant that performs every `any(val).(T)` type
assertion through an explicit checked cast (where a failed assertion is a
panic, modelled as `none`) always returns `some` of exactly the pair the
plain function returns, so every execution path delivers a (value, error)
pair and no assertion ever fails. -/
theorem c9_no_panic_every_path_returns (t : Ty) (key : String)
    (d : t.denote) (env : Env) :
    ReadEnvChecked t key d env = some (ReadEnv t key d env) := by
  rw [ReadEnv_eq, ReadEnvChecked_eq]
  by_cases h : osGetenv env key = ""
  · simp [h]
  · rw [if_neg h, if_neg h]
    cases t with
    | tint =>
        rcases hq : goAtoi (osGetenv env key) with e | v <;>
          simp [typeSwitch, typeSwitchChecked, castTo, hq]
    | tint64 =>
        rcases hq : goParseInt64 (osGetenv env key) with e | v <;>
          simp [typeSwitch, typeSwitchChecked, castTo, hq]
    | tstr => simp [typeSwitch, typeSwitchChecked, castTo]
    | tbool =>
        rcases hq : goParseBool (osGetenv env key) with e | v <;>
          simp [typeSwitch, typeSwitchChecked, castTo, hq]
    | tfloat64 =>
        rcases hq : goParseFloat (osGetenv env key) with e | v <;>
          simp [typeSwitch, typeSwitchChecked, castTo, hq]
    | tother name => simp [typeSwitch, typeSwitchChecked]

/-- C10: for a type outside the supported set, an unset variable or one set
to the empty string yields the default with NO error: the unsupported-type
error can only arise from a non-empty raw value, because the absent-or-empty
check precedes the type dispatch. -/
theorem c10_unsupported_empty_no_error (name key : String) (d : String)
    (env : Env) :
    ((env key = none ∨ env key = some "") →
      ReadEnv (.tother name) key d env = (d, none)) ∧
    (∀ g : GoError, (ReadEnv (.tother name) key d env).2 = some g →
      osGetenv env key ≠ "") := by
  constructor
  · rintro (h | h) <;> simp [ReadEnv_eq, osGetenv, h]
  · intro g hg h
    rw [ReadEnv_eq, h] at hg
    simp at hg

theorem c10_unsupported_empty_no_error_witness :
    ReadEnv (.tother "[]int") "TEST_SLICE" "slice-default" (fun _ => none) =
      ("slice-default", none) :=
  (c10_unsupported_empty_no_error "[]int" "TEST_SLICE" "slice-default"
    (fun _ => none)).1 (Or.inl rfl)

end Envreader
